import Mathlib

/-!
Shallow embedding of `cmd/queue-inmemory-webhook-forwarder/forwarder.go`
(an in-memory batching webhook forwarder) and proofs about its batching,
retry and error-propagation behaviour.

The embedding models the external world (the JSON encoder, `http.NewRequest`,
`http.DefaultClient.Do`, channel readiness, timer fires) as explicit inputs,
and the program's effects (sleeps, HTTP attempts, flushes, the error sent to
the error channel) as explicit outputs, so every definition is executable.
-/

namespace QueueInmemoryWebhookForwarder

/-- Modelled from the spec: the record type `logHTTPHandlerRequestBody` is
defined by the HTTP ingest handler, which is outside `src/`; per the spec a
Record is an opaque, JSON-serializable payload whose contents the core never
inspects, so it is modelled as an opaque wrapper of its serialized form. -/
structure logHTTPHandlerRequestBody where
  payload : String
  deriving DecidableEq, Repr

/-- Modelled from the spec: the relevant fields of `dic.flags` (the flag
container `diContainer` lives outside `src/`): endpoint URL, batch size and
batch interval, consumed as immutable inputs. Durations are in nanoseconds
(Go `time.Duration`); the spec declares both numeric fields non-negative. -/
structure diFlags where
  postEndpoint : String
  batchSize : Nat
  batchInterval : Nat
  deriving DecidableEq, Repr

/-- The `webhookForwarder` struct of forwarder.go. -/
structure webhookForwarder where
  endpoint : String
  batchSize : Nat
  batchInterval : Nat
  retrySleepInterval : Nat
  retryLimit : Nat
  deriving DecidableEq, Repr

/-- `newWebhookForwarderHandler`: constructs the forwarder from the flags,
with the hard-coded retry policy (2 s sleep between attempts, 3 retries).
There is no validation: every flag combination is accepted as given. -/
def newWebhookForwarderHandler (flags : diFlags) : webhookForwarder :=
  { endpoint := flags.postEndpoint
    batchSize := flags.batchSize
    batchInterval := flags.batchInterval
    retrySleepInterval := 2000000000
    retryLimit := 3 }

/-- Outcome of one `http.DefaultClient.Do(req)` call, supplied by the
environment: a transport-level error (carrying the Go error's message) or a
response carrying its HTTP status code. -/
inductive DoResult where
  | transportErr (msg : String)
  | response (statusCode : Nat)
  deriving DecidableEq, Repr

/-- Go error values as this program builds them: the opaque errors returned
by `json.Marshal`, `http.NewRequest` and `http.DefaultClient.Do`, the
status-code error built by `errors.Errorf`, and `errors.Wrap` contexts. -/
inductive GoError where
  | marshalFailure (msg : String)
  | newRequestFailure (msg : String)
  | doFailure (msg : String)
  | unexpectedStatus (got : Nat)
  | wrap (msg : String) (cause : GoError)
  deriving DecidableEq, Repr

/-- The external world seen by `forwardWithRetries`: whether `json.Marshal`
fails (and with which message), whether `http.NewRequest` fails, and the
outcome of the k-th `http.DefaultClient.Do` call (k = 0 is the original
attempt, k = n the n-th retry). -/
structure HTTPEnv where
  marshalErr : Option String
  newRequestErr : Option String
  attempts : Nat → DoResult

/-- The outbound HTTP request as forwarder.go builds it: method, URL, body,
and the single header set by `req.Header.Add`. -/
structure HTTPRequest where
  method : String
  url : String
  body : String
  contentType : String
  deriving DecidableEq, Repr

/-- Modelled from the spec: `json.Marshal` applied to the record slice (the
record type is declared outside `src/`) yields the JSON array of the
records' encodings in arrival order; `enc` is the opaque per-record
encoding. -/
def jsonMarshalArray (enc : logHTTPHandlerRequestBody → String)
    (batch : List logHTTPHandlerRequestBody) : String :=
  "[" ++ String.intercalate "," (batch.map enc) ++ "]"

/-- The request built by `http.NewRequest(http.MethodPost, w.endpoint, body)`
followed by `req.Header.Add("Content-Type", "application/json")`. -/
def buildRequest (w : webhookForwarder) (enc : logHTTPHandlerRequestBody → String)
    (batch : List logHTTPHandlerRequestBody) : HTTPRequest :=
  { method := "POST"
    url := w.endpoint
    body := jsonMarshalArray enc batch
    contentType := "application/json" }

/-- Observable effects of the delivery loop, in order of occurrence:
`time.Sleep(d)` and one `http.DefaultClient.Do` call sending `req`. -/
inductive FwdEvent where
  | sleep (d : Nat)
  | httpAttempt (req : HTTPRequest)
  deriving DecidableEq, Repr

/-- The `for` loop of `forwardWithRetries` (forwarder.go lines 149-179),
entered with `retries = 0`, `lastStatusCode = 0` (Go zero value) and
`lastErr = nil`. Returns the events performed, the returned status code and
the returned error.
  - exit when `retries > w.retryLimit`, returning the last status and error;
  - sleep `retrySleepInterval` before every attempt except the first;
  - a transport error is wrapped, saved as last error, does not update the
    last status, and the loop retries;
  - a [200,300) status returns immediately with no error;
  - any other status builds the status error, updates last status and error,
    and the loop retries. -/
def forwardLoop (w : webhookForwarder) (env : HTTPEnv) (req : HTTPRequest)
    (retries lastStatusCode : Nat) (lastErr : Option GoError) :
    List FwdEvent × Nat × Option GoError :=
  if h : retries > w.retryLimit then
    ([], lastStatusCode, lastErr)
  else
    let pre : List FwdEvent :=
      (if 1 ≤ retries then [FwdEvent.sleep w.retrySleepInterval] else []) ++
        [FwdEvent.httpAttempt req]
    match env.attempts retries with
    | DoResult.transportErr s =>
      let rest := forwardLoop w env req (retries + 1) lastStatusCode
        (some (GoError.wrap "DO http client request" (GoError.doFailure s)))
      (pre ++ rest.1, rest.2)
    | DoResult.response c =>
      if 200 ≤ c ∧ c < 300 then
        (pre, c, none)
      else
        let rest := forwardLoop w env req (retries + 1) c
          (some (GoError.unexpectedStatus c))
        (pre ++ rest.1, rest.2)
termination_by w.retryLimit + 1 - retries
decreasing_by all_goals omega

/-- `forwardWithRetries` (forwarder.go lines 129-179): marshal the batch
(fatal on failure), build the POST request (fatal on failure), then run the
bounded retry loop. -/
def forwardWithRetries (w : webhookForwarder) (enc : logHTTPHandlerRequestBody → String)
    (env : HTTPEnv) (eventsPayload : List logHTTPHandlerRequestBody) :
    List FwdEvent × Nat × Option GoError :=
  match env.marshalErr with
  | some m => ([], 0, some (GoError.wrap "marshal" (GoError.marshalFailure m)))
  | none =>
    match env.newRequestErr with
    | some m => ([], 0, some (GoError.wrap "new HTTP request" (GoError.newRequestFailure m)))
    | none => forwardLoop w env (buildRequest w enc eventsPayload) 0 0 none

/-- `forwardEvents` (forwarder.go lines 102-127): return at once on an empty
batch; otherwise call `forwardWithRetries` and, if it returned an error,
wrap it and send it to the error channel. Result: the HTTP events performed,
the error sent to `errCh` (`none` when nothing is sent), and the list of
batches handed to `forwardWithRetries`. -/
def forwardEvents (w : webhookForwarder) (enc : logHTTPHandlerRequestBody → String)
    (env : HTTPEnv) (eventsPayload : List logHTTPHandlerRequestBody)
    (batchInterval : Bool) :
    List FwdEvent × Option GoError × List (List logHTTPHandlerRequestBody) :=
  if eventsPayload.length = 0 then
    ([], none, [])
  else
    let r := forwardWithRetries w enc env eventsPayload
    match r.2.2 with
    | some e => (r.1, some (GoError.wrap "forward with retries exhausted" e), [eventsPayload])
    | none => (r.1, none, [eventsPayload])

/-- Number of HTTP attempts in an event trace. -/
def countAttempts (tr : List FwdEvent) : Nat :=
  tr.countP fun e => match e with
    | FwdEvent.httpAttempt _ => true
    | FwdEvent.sleep _ => false

/-- Number of sleeps in an event trace. -/
def countSleeps (tr : List FwdEvent) : Nat :=
  tr.countP fun e => match e with
    | FwdEvent.sleep _ => true
    | FwdEvent.httpAttempt _ => false

/-- One delivered communication of `bgProcessor`'s `select`: a record
received from the internal `msg` channel, or a fire of the `deadline` timer
channel. Iterations that take the `default` branch leave the state untouched
and are elided (they deliver nothing). -/
inductive BgEvent where
  | record (r : logHTTPHandlerRequestBody)
  | deadlineFired
  deriving DecidableEq, Repr

/-- The size check at the top of `bgProcessor`'s loop (forwarder.go lines
66-79): when `w.batchSize > 0 && len(eventsPayload) >= w.batchSize`, the
buffer is flushed (handed to `forwardEvents` with the time-flush flag false)
and cleared. Returns the flushes performed (batch, time-flush flag) and the
buffer afterwards. -/
def sizeCheck (w : webhookForwarder) (buf : List logHTTPHandlerRequestBody) :
    List (List logHTTPHandlerRequestBody × Bool) × List logHTTPHandlerRequestBody :=
  if 0 < w.batchSize ∧ w.batchSize ≤ buf.length then ([(buf, false)], [])
  else ([], buf)

/-- `bgProcessor`'s loop (forwarder.go lines 59-100) run over a sequence of
delivered communications, starting from buffer `buf`. Each iteration first
performs the top-of-loop size check, then handles one communication:
  - a received record is appended to the buffer;
  - a deadline fire flushes the buffer (time-flush flag true) and clears it,
    but only when `w.batchInterval > 0` — with `batchInterval = 0` the
    `deadline` channel is nil and can never deliver, so the fire is elided;
after the last communication the loop keeps spinning, so the size check runs
once more (further spins do not change the state). Returns all flushes, in
order, and the final buffer. -/
def bgRun (w : webhookForwarder) :
    List logHTTPHandlerRequestBody → List BgEvent →
    List (List logHTTPHandlerRequestBody × Bool) × List logHTTPHandlerRequestBody
  | buf, [] => sizeCheck w buf
  | buf, BgEvent.record r :: rest =>
    let s := sizeCheck w buf
    let t := bgRun w (s.2 ++ [r]) rest
    (s.1 ++ t.1, t.2)
  | buf, BgEvent.deadlineFired :: rest =>
    let s := sizeCheck w buf
    if 0 < w.batchInterval then
      let t := bgRun w [] rest
      (s.1 ++ [(s.2, true)] ++ t.1, t.2)
    else
      let t := bgRun w s.2 rest
      (s.1 ++ t.1, t.2)

/-- The records carried by a communication sequence, in order. -/
def recordsOf (evs : List BgEvent) : List logHTTPHandlerRequestBody :=
  evs.filterMap fun e => match e with
    | BgEvent.record r => some r
    | BgEvent.deadlineFired => none

/-- What one execution of the `select` statement at the bottom of
`bgProcessor`'s loop (forwarder.go lines 80-98) does, as a function of which
channels are ready. `blocked` would mean the statement suspends awaiting a
communication; the statement has a `default: continue` branch, so when
nothing is ready it returns `polledDefault` instead (a non-blocking poll). -/
inductive SelectOutcome where
  | received (r : logHTTPHandlerRequestBody)
  | deadlineFired
  | polledDefault
  | blocked
  deriving DecidableEq, Repr

/-- The `select` of forwarder.go lines 80-98. When several cases are ready Go
picks one at random; the model picks the message case, which no claim here
depends on. When no case is ready, the `default` branch runs. -/
def bgSelect (msgReady : Option logHTTPHandlerRequestBody) (deadlineReady : Bool) :
    SelectOutcome :=
  match msgReady, deadlineReady with
  | some r, _ => SelectOutcome.received r
  | none, true => SelectOutcome.deadlineFired
  | none, false => SelectOutcome.polledDefault

/-- Result of one full iteration of `bgProcessor`'s `for` loop: the loop
continues with a new buffer after performing some flushes, or the procedure
returns. The loop body of forwarder.go lines 65-99 contains no `return`,
`break` or other exit. -/
inductive LoopOutcome where
  | continues (buf : List logHTTPHandlerRequestBody)
      (flushes : List (List logHTTPHandlerRequestBody × Bool))
  | returns
  deriving DecidableEq, Repr

/-- One full iteration of `bgProcessor`'s loop: the top-of-loop size check,
then the `select` on the channels that are ready (the `deadline` channel is
nil, hence never ready, when `w.batchInterval = 0`). -/
def bgIteration (w : webhookForwarder) (buf : List logHTTPHandlerRequestBody)
    (msgReady : Option logHTTPHandlerRequestBody) (deadlineReady : Bool) : LoopOutcome :=
  let s := sizeCheck w buf
  match bgSelect msgReady (deadlineReady && decide (0 < w.batchInterval)) with
  | SelectOutcome.received r => LoopOutcome.continues (s.2 ++ [r]) s.1
  | SelectOutcome.deadlineFired => LoopOutcome.continues [] (s.1 ++ [(s.2, true)])
  | SelectOutcome.polledDefault => LoopOutcome.continues s.2 s.1
  | SelectOutcome.blocked => LoopOutcome.continues s.2 s.1

/-- `forward` (forwarder.go lines 47-57): spawns `bgProcessor`, then pumps
every element of the external stream into the internal `msg` channel and
returns when the stream closes. The communications it delivers to
`bgProcessor` are exactly the stream's records, in order. -/
def forward (_w : webhookForwarder) (msgStream : List logHTTPHandlerRequestBody) :
    List BgEvent :=
  msgStream.map BgEvent.record

/-- A delivery attempt that does not succeed: a transport-level error, or a
response whose status lies outside [200,300). -/
def attemptFails (r : DoResult) : Prop :=
  (∃ s, r = DoResult.transportErr s) ∨
    (∃ c, r = DoResult.response c ∧ ¬(200 ≤ c ∧ c < 300))

/-- How one `Do` outcome updates the loop's `lastStatusCode`: a response
overwrites it, a transport error leaves it unchanged. -/
def nextStatus (r : DoResult) (lastStatusCode : Nat) : Nat :=
  match r with
  | DoResult.transportErr _ => lastStatusCode
  | DoResult.response c => c

/-- The status code last observed across the first `n` attempts, starting
from the zero value 0: each response overwrites it, transport errors leave
it unchanged. -/
def lastObservedStatus (f : Nat → DoResult) : Nat → Nat
  | 0 => 0
  | n + 1 => nextStatus (f n) (lastObservedStatus f n)

/-- The error the loop records for a failing attempt: the wrapped client
error for a transport failure, the status error otherwise. -/
def lastAttemptError (r : DoResult) : GoError :=
  match r with
  | DoResult.transportErr s => GoError.wrap "DO http client request" (GoError.doFailure s)
  | DoResult.response c => GoError.unexpectedStatus c

lemma lastObservedStatus_four (f : Nat → DoResult) :
    lastObservedStatus f 4 =
      nextStatus (f 3) (nextStatus (f 2) (nextStatus (f 1) (nextStatus (f 0) 0))) := rfl

lemma forwardLoop_exit (w : webhookForwarder) (env : HTTPEnv) (req : HTTPRequest)
    (r sc : Nat) (er : Option GoError) (h : w.retryLimit < r) :
    forwardLoop w env req r sc er = ([], sc, er) := by
  rw [forwardLoop, dif_pos h]

lemma forwardLoop_fail_step (w : webhookForwarder) (env : HTTPEnv) (req : HTTPRequest)
    (r sc : Nat) (er : Option GoError) (hr : r ≤ w.retryLimit)
    (hf : attemptFails (env.attempts r)) :
    forwardLoop w env req r sc er =
      ((if 1 ≤ r then [FwdEvent.sleep w.retrySleepInterval] else []) ++
        FwdEvent.httpAttempt req ::
          (forwardLoop w env req (r + 1) (nextStatus (env.attempts r) sc)
            (some (lastAttemptError (env.attempts r)))).1,
       (forwardLoop w env req (r + 1) (nextStatus (env.attempts r) sc)
         (some (lastAttemptError (env.attempts r)))).2) := by
  have hr' : ¬ r > w.retryLimit := by omega
  rcases hf with ⟨s, hs⟩ | ⟨c, hc, hnc⟩
  · rw [forwardLoop, dif_neg hr']
    simp only [hs, nextStatus, lastAttemptError, List.append_assoc, List.singleton_append]
  · rw [forwardLoop, dif_neg hr']
    simp only [hc, nextStatus, lastAttemptError, if_neg hnc, List.append_assoc,
      List.singleton_append]

lemma forwardLoop_success_step (w : webhookForwarder) (env : HTTPEnv) (req : HTTPRequest)
    (r sc : Nat) (er : Option GoError) (c : Nat) (hr : r ≤ w.retryLimit)
    (hresp : env.attempts r = DoResult.response c) (h200 : 200 ≤ c) (h300 : c < 300) :
    forwardLoop w env req r sc er =
      ((if 1 ≤ r then [FwdEvent.sleep w.retrySleepInterval] else []) ++
        [FwdEvent.httpAttempt req], c, none) := by
  have hr' : ¬ r > w.retryLimit := by omega
  rw [forwardLoop, dif_neg hr']
  simp only [hresp, if_pos (And.intro h200 h300)]

lemma forwardLoop_success_run (w : webhookForwarder) (env : HTTPEnv) (req : HTTPRequest) :
    ∀ (j r sc : Nat) (er : Option GoError) (c : Nat),
      r + j ≤ w.retryLimit →
      (∀ k, k < j → attemptFails (env.attempts (r + k))) →
      env.attempts (r + j) = DoResult.response c → 200 ≤ c → c < 300 →
      ∃ tr, forwardLoop w env req r sc er = (tr, c, none) ∧
        countAttempts tr = j + 1 ∧
        countSleeps tr = j + (if 1 ≤ r then 1 else 0) := by
  intro j
  induction j with
  | zero =>
    intro r sc er c hr _hprev hresp h200 h300
    refine ⟨(if 1 ≤ r then [FwdEvent.sleep w.retrySleepInterval] else []) ++
      [FwdEvent.httpAttempt req], ?_, ?_, ?_⟩
    · exact forwardLoop_success_step w env req r sc er c (by omega)
        (by simpa using hresp) h200 h300
    · by_cases h1 : 1 ≤ r <;> simp [countAttempts, h1]
    · by_cases h1 : 1 ≤ r <;> simp [countSleeps, h1]
  | succ j ih =>
    intro r sc er c hr hprev hresp h200 h300
    have hf0 : attemptFails (env.attempts r) := by
      have := hprev 0 (Nat.succ_pos j)
      simpa using this
    have hstep := forwardLoop_fail_step w env req r sc er (by omega) hf0
    obtain ⟨tr', htr', hA, hS⟩ := ih (r + 1) (nextStatus (env.attempts r) sc)
      (some (lastAttemptError (env.attempts r))) c (by omega)
      (fun k hk => by
        have h' := hprev (k + 1) (by omega)
        rw [show r + (k + 1) = r + 1 + k by omega] at h'
        exact h')
      (by rw [show r + 1 + j = r + (j + 1) by omega]; exact hresp) h200 h300
    refine ⟨(if 1 ≤ r then [FwdEvent.sleep w.retrySleepInterval] else []) ++
      FwdEvent.httpAttempt req :: tr', ?_, ?_, ?_⟩
    · rw [hstep, htr']
    · by_cases h1 : 1 ≤ r <;>
        simp [countAttempts, h1, List.countP_cons] at hA ⊢ <;> omega
    · by_cases h1 : 1 ≤ r <;>
        simp [countSleeps, h1, List.countP_cons] at hS ⊢ <;> omega

lemma forwardLoop_mem (w : webhookForwarder) (env : HTTPEnv) (req : HTTPRequest) :
    ∀ (n r sc : Nat) (er : Option GoError), w.retryLimit + 1 - r ≤ n →
      ∀ e, e ∈ (forwardLoop w env req r sc er).1 →
        e = FwdEvent.sleep w.retrySleepInterval ∨ e = FwdEvent.httpAttempt req := by
  intro n
  induction n with
  | zero =>
    intro r sc er hn e he
    rw [forwardLoop_exit w env req r sc er (by omega)] at he
    simp at he
  | succ n ih =>
    intro r sc er hn e he
    by_cases h : r > w.retryLimit
    · rw [forwardLoop_exit w env req r sc er h] at he
      simp at he
    · rcases ha : env.attempts r with s | c
      · rw [forwardLoop_fail_step w env req r sc er (by omega) (Or.inl ⟨s, ha⟩)] at he
        by_cases h1 : 1 ≤ r
        · simp [h1] at he
          rcases he with he | he | he
          · exact Or.inl he
          · exact Or.inr he
          · exact ih (r + 1) _ _ (by omega) e he
        · simp [h1] at he
          rcases he with he | he
          · exact Or.inr he
          · exact ih (r + 1) _ _ (by omega) e he
      · by_cases h2 : 200 ≤ c ∧ c < 300
        · rw [forwardLoop_success_step w env req r sc er c (by omega) ha h2.1 h2.2] at he
          by_cases h1 : 1 ≤ r <;> simp [h1] at he <;> tauto
        · rw [forwardLoop_fail_step w env req r sc er (by omega) (Or.inr ⟨c, ha, h2⟩)] at he
          by_cases h1 : 1 ≤ r
          · simp [h1] at he
            rcases he with he | he | he
            · exact Or.inl he
            · exact Or.inr he
            · exact ih (r + 1) _ _ (by omega) e he
          · simp [h1] at he
            rcases he with he | he
            · exact Or.inr he
            · exact ih (r + 1) _ _ (by omega) e he

/-- A concrete forwarder as `newWebhookForwarderHandler` builds it for
`batchSize = 2`, `batchInterval = 0`: 2 s retry sleep, retry limit 3. -/
def scenarioW : webhookForwarder :=
  newWebhookForwarderHandler { postEndpoint := "http://localhost:9999/webhook"
                               batchSize := 2
                               batchInterval := 0 }

/-- A concrete record encoding: each record is already its JSON text. -/
def enc0 : logHTTPHandlerRequestBody → String := fun r => r.payload

def recA : logHTTPHandlerRequestBody := { payload := "1" }

def recB : logHTTPHandlerRequestBody := { payload := "2" }

def recC : logHTTPHandlerRequestBody := { payload := "3" }

def recD : logHTTPHandlerRequestBody := { payload := "4" }

/-- An environment whose every delivery attempt fails at transport level. -/
def envAlwaysDown : HTTPEnv :=
  { marshalErr := none
    newRequestErr := none
    attempts := fun _ => DoResult.transportErr "connection refused" }

/-- An environment where the first attempt fails at transport level and
every later attempt returns 204. -/
def envSecondOk : HTTPEnv :=
  { marshalErr := none
    newRequestErr := none
    attempts := fun k => if k = 0 then DoResult.transportErr "connection refused"
      else DoResult.response 204 }

/-- An environment whose first attempt already returns 204. -/
def envFirstOk : HTTPEnv :=
  { marshalErr := none
    newRequestErr := none
    attempts := fun _ => DoResult.response 204 }

/-- An environment where `json.Marshal` fails. -/
def envMarshalFail : HTTPEnv :=
  { marshalErr := some "unsupported value"
    newRequestErr := none
    attempts := fun _ => DoResult.response 204 }

/-- An environment where `http.NewRequest` fails. -/
def envRequestFail : HTTPEnv :=
  { marshalErr := none
    newRequestErr := some "parse url"
    attempts := fun _ => DoResult.response 204 }

/-- C1: for every batch, if every delivery attempt fails (transport error or
non-2xx status), `forwardWithRetries` with `retryLimit = 3` performs exactly
4 HTTP attempts — the trace is attempt, sleep, attempt, sleep, attempt,
sleep, attempt, so exactly 3 sleeps of `retrySleepInterval`, before attempts
2, 3 and 4 and never before the first — and returns the last observed
status code (which is 0 when every attempt was a transport failure, since
transport failures do not update it) together with the last error. -/
theorem C1_retry_exhaustion (w : webhookForwarder) (enc : logHTTPHandlerRequestBody → String)
    (env : HTTPEnv) (batch : List logHTTPHandlerRequestBody)
    (hm : env.marshalErr = none) (hq : env.newRequestErr = none)
    (hlim : w.retryLimit = 3)
    (hfail : ∀ k, k < 4 → attemptFails (env.attempts k)) :
    forwardWithRetries w enc env batch =
      ([FwdEvent.httpAttempt (buildRequest w enc batch),
        FwdEvent.sleep w.retrySleepInterval,
        FwdEvent.httpAttempt (buildRequest w enc batch),
        FwdEvent.sleep w.retrySleepInterval,
        FwdEvent.httpAttempt (buildRequest w enc batch),
        FwdEvent.sleep w.retrySleepInterval,
        FwdEvent.httpAttempt (buildRequest w enc batch)],
       lastObservedStatus env.attempts 4,
       some (lastAttemptError (env.attempts 3))) ∧
      ((∀ k, k < 4 → ∃ s, env.attempts k = DoResult.transportErr s) →
        lastObservedStatus env.attempts 4 = 0) := by
  constructor
  · have hunfold : forwardWithRetries w enc env batch =
        forwardLoop w env (buildRequest w enc batch) 0 0 none := by
      simp [forwardWithRetries, hm, hq]
    rw [hunfold]
    rw [forwardLoop_fail_step w env _ 0 _ _ (by omega) (hfail 0 (by omega))]
    rw [forwardLoop_fail_step w env _ 1 _ _ (by omega) (hfail 1 (by omega))]
    rw [forwardLoop_fail_step w env _ 2 _ _ (by omega) (hfail 2 (by omega))]
    rw [forwardLoop_fail_step w env _ 3 _ _ (by omega) (hfail 3 (by omega))]
    rw [forwardLoop_exit w env _ 4 _ _ (by omega)]
    simp [lastObservedStatus_four]
  · intro h
    obtain ⟨s0, h0⟩ := h 0 (by omega)
    obtain ⟨s1, h1⟩ := h 1 (by omega)
    obtain ⟨s2, h2⟩ := h 2 (by omega)
    obtain ⟨s3, h3⟩ := h 3 (by omega)
    rw [lastObservedStatus_four, h0, h1, h2, h3]
    simp [nextStatus]

/-- Witness for C1 at a concrete input: every attempt is refused at
transport level, so 4 attempts and 3 two-second sleeps happen and the
result is status 0 with the wrapped transport error. -/
theorem C1_retry_exhaustion_witness :
    forwardWithRetries scenarioW enc0 envAlwaysDown [recA] =
      ([FwdEvent.httpAttempt (buildRequest scenarioW enc0 [recA]),
        FwdEvent.sleep 2000000000,
        FwdEvent.httpAttempt (buildRequest scenarioW enc0 [recA]),
        FwdEvent.sleep 2000000000,
        FwdEvent.httpAttempt (buildRequest scenarioW enc0 [recA]),
        FwdEvent.sleep 2000000000,
        FwdEvent.httpAttempt (buildRequest scenarioW enc0 [recA])],
       0,
       some (GoError.wrap "DO http client request"
         (GoError.doFailure "connection refused"))) :=
  (C1_retry_exhaustion scenarioW enc0 envAlwaysDown [recA] rfl rfl rfl
    (fun _ _ => Or.inl ⟨"connection refused", rfl⟩)).1

/-- C4: if the attempts before attempt number j (0-based) all fail and
attempt j returns a status in [200,300), `forwardWithRetries` returns that
status with no error, having performed exactly j+1 HTTP attempts and j
sleeps — the remaining retry budget is discarded. -/
theorem C4_success_short_circuit (w : webhookForwarder)
    (enc : logHTTPHandlerRequestBody → String) (env : HTTPEnv)
    (batch : List logHTTPHandlerRequestBody) (j c : Nat)
    (hm : env.marshalErr = none) (hq : env.newRequestErr = none)
    (hj : j ≤ w.retryLimit)
    (hprev : ∀ k, k < j → attemptFails (env.attempts k))
    (hresp : env.attempts j = DoResult.response c)
    (h200 : 200 ≤ c) (h300 : c < 300) :
    ∃ tr, forwardWithRetries w enc env batch = (tr, c, none) ∧
      countAttempts tr = j + 1 ∧ countSleeps tr = j := by
  obtain ⟨tr, htr, hA, hS⟩ := forwardLoop_success_run w env (buildRequest w enc batch)
    j 0 0 none c (by omega) (by simpa using hprev) (by simpa using hresp) h200 h300
  refine ⟨tr, ?_, hA, ?_⟩
  · rw [show forwardWithRetries w enc env batch =
      forwardLoop w env (buildRequest w enc batch) 0 0 none from by
        simp [forwardWithRetries, hm, hq]]
    exact htr
  · simpa using hS

/-- Witness for C4 at a concrete input: the first attempt is refused, the
second returns 204, so exactly 2 attempts and 1 sleep happen and the result
is status 204 with no error. -/
theorem C4_success_short_circuit_witness :
    ∃ tr, forwardWithRetries scenarioW enc0 envSecondOk [recA] = (tr, 204, none) ∧
      countAttempts tr = 2 ∧ countSleeps tr = 1 :=
  C4_success_short_circuit scenarioW enc0 envSecondOk [recA] 1 204 rfl rfl
    (by decide)
    (fun k hk => by
      have hk0 : k = 0 := by omega
      subst hk0
      exact Or.inl ⟨"connection refused", rfl⟩)
    rfl (by decide) (by decide)

/-- C5: a batch whose serialization fails, and a batch whose request cannot
be constructed, make `forwardWithRetries` return immediately with status 0
and the (wrapped) error: the event trace is empty, so zero HTTP attempts
and zero sleeps are performed. -/
theorem C5_fatal_short_circuit (w : webhookForwarder)
    (enc : logHTTPHandlerRequestBody → String) (env : HTTPEnv)
    (batch : List logHTTPHandlerRequestBody) :
    (∀ m, env.marshalErr = some m →
      forwardWithRetries w enc env batch =
        ([], 0, some (GoError.wrap "marshal" (GoError.marshalFailure m)))) ∧
    (∀ m, env.marshalErr = none → env.newRequestErr = some m →
      forwardWithRetries w enc env batch =
        ([], 0, some (GoError.wrap "new HTTP request" (GoError.newRequestFailure m)))) := by
  constructor
  · intro m hm
    simp [forwardWithRetries, hm]
  · intro m hm hq
    simp [forwardWithRetries, hm, hq]

/-- Witness for C5 at concrete inputs: a failing `json.Marshal` and a
failing `http.NewRequest` each produce the empty event trace, status 0 and
the wrapped fatal error. -/
theorem C5_fatal_short_circuit_witness :
    forwardWithRetries scenarioW enc0 envMarshalFail [recA] =
      ([], 0, some (GoError.wrap "marshal" (GoError.marshalFailure "unsupported value"))) ∧
    forwardWithRetries scenarioW enc0 envRequestFail [recA] =
      ([], 0, some (GoError.wrap "new HTTP request" (GoError.newRequestFailure "parse url"))) :=
  ⟨(C5_fatal_short_circuit scenarioW enc0 envMarshalFail [recA]).1 "unsupported value" rfl,
   (C5_fatal_short_circuit scenarioW enc0 envRequestFail [recA]).2 "parse url" rfl rfl⟩

/-- C2: every HTTP attempt `forwardWithRetries` performs — the original and
every retry — sends a POST to the configured endpoint whose body is the
JSON serialization of the batch as a single array of its records in arrival
order, with header Content-Type: application/json. -/
theorem C2_post_request_shape (w : webhookForwarder)
    (enc : logHTTPHandlerRequestBody → String) (env : HTTPEnv)
    (batch : List logHTTPHandlerRequestBody) (q : HTTPRequest)
    (hq : FwdEvent.httpAttempt q ∈ (forwardWithRetries w enc env batch).1) :
    q.method = "POST" ∧ q.url = w.endpoint ∧
    q.body = jsonMarshalArray enc batch ∧ q.contentType = "application/json" := by
  rcases hme : env.marshalErr with _ | m
  · rcases hre : env.newRequestErr with _ | m
    · rw [show forwardWithRetries w enc env batch =
        forwardLoop w env (buildRequest w enc batch) 0 0 none from by
          simp [forwardWithRetries, hme, hre]] at hq
      have h := forwardLoop_mem w env (buildRequest w enc batch)
        (w.retryLimit + 1) 0 0 none (by omega) _ hq
      rcases h with h | h
      · cases h
      · cases h
        exact ⟨rfl, rfl, rfl, rfl⟩
    · rw [show forwardWithRetries w enc env batch =
        ([], 0, some (GoError.wrap "new HTTP request" (GoError.newRequestFailure m)))
        from by simp [forwardWithRetries, hme, hre]] at hq
      simp at hq
  · rw [show forwardWithRetries w enc env batch =
      ([], 0, some (GoError.wrap "marshal" (GoError.marshalFailure m)))
      from by simp [forwardWithRetries, hme]] at hq
    simp at hq

/-- Witness for C2 at a concrete input: the request of the one attempt the
first-try-success environment performs is a POST to the endpoint with the
JSON array body and the JSON content type. -/
theorem C2_post_request_shape_witness :
    (buildRequest scenarioW enc0 [recA, recB]).method = "POST" ∧
    (buildRequest scenarioW enc0 [recA, recB]).url = scenarioW.endpoint ∧
    (buildRequest scenarioW enc0 [recA, recB]).body = jsonMarshalArray enc0 [recA, recB] ∧
    (buildRequest scenarioW enc0 [recA, recB]).contentType = "application/json" :=
  C2_post_request_shape scenarioW enc0 envFirstOk [recA, recB]
    (buildRequest scenarioW enc0 [recA, recB])
    (by rw [show forwardWithRetries scenarioW enc0 envFirstOk [recA, recB] =
          forwardLoop scenarioW envFirstOk (buildRequest scenarioW enc0 [recA, recB]) 0 0 none
          from rfl]
        rw [forwardLoop_success_step scenarioW envFirstOk
          (buildRequest scenarioW enc0 [recA, recB]) 0 0 none 204 (by decide) rfl
          (by decide) (by decide)]
        simp)

/-- Counterexample to C6 as stated: for a batch whose serialization fails —
a fatal-class error — `forwardEvents` sends to the error sink the marshal
error wrapped with the context "forward with retries exhausted", so it is
not only retryable-class errors that receive that wrap, and the fatal error
does not reach the sink unwrapped. -/
theorem C6_fatal_wrap_counterexample :
    (forwardEvents scenarioW enc0 envMarshalFail [recA] false).2.1 =
      some (GoError.wrap "forward with retries exhausted"
        (GoError.wrap "marshal" (GoError.marshalFailure "unsupported value"))) ∧
    some (GoError.wrap "forward with retries exhausted"
        (GoError.wrap "marshal" (GoError.marshalFailure "unsupported value"))) ≠
      some (GoError.wrap "marshal" (GoError.marshalFailure "unsupported value")) := by
  exact ⟨rfl, by decide⟩

/-- C6 as amended: fatal-class errors short-circuit the retry loop (zero
HTTP attempts) and are escalated to the error sink, but every error
escalated to the sink — fatal-class and exhausted-retryable alike — is
wrapped with the context "forward with retries exhausted"; on a successful
delivery nothing is sent to the error sink. -/
theorem C6_error_sink_wrapping (w : webhookForwarder)
    (enc : logHTTPHandlerRequestBody → String) (env : HTTPEnv)
    (eventsPayload : List logHTTPHandlerRequestBody) (b : Bool)
    (hne : eventsPayload ≠ []) :
    (∀ m, env.marshalErr = some m →
      (forwardEvents w enc env eventsPayload b).1 = [] ∧
      (forwardEvents w enc env eventsPayload b).2.1 =
        some (GoError.wrap "forward with retries exhausted"
          (GoError.wrap "marshal" (GoError.marshalFailure m)))) ∧
    (∀ m, env.marshalErr = none → env.newRequestErr = some m →
      (forwardEvents w enc env eventsPayload b).1 = [] ∧
      (forwardEvents w enc env eventsPayload b).2.1 =
        some (GoError.wrap "forward with retries exhausted"
          (GoError.wrap "new HTTP request" (GoError.newRequestFailure m)))) ∧
    (∀ tr sc, forwardWithRetries w enc env eventsPayload = (tr, sc, none) →
      (forwardEvents w enc env eventsPayload b).2.1 = none) ∧
    (∀ tr sc e, forwardWithRetries w enc env eventsPayload = (tr, sc, some e) →
      (forwardEvents w enc env eventsPayload b).2.1 =
        some (GoError.wrap "forward with retries exhausted" e)) := by
  have hlen : ¬ eventsPayload.length = 0 := by
    simpa [List.length_eq_zero] using hne
  refine ⟨?_, ?_, ?_, ?_⟩
  · intro m hm
    constructor <;> simp [forwardEvents, forwardWithRetries, hm, hlen]
  · intro m hm hr
    constructor <;> simp [forwardEvents, forwardWithRetries, hm, hr, hlen]
  · intro tr sc h
    simp [forwardEvents, hlen, h]
  · intro tr sc e h
    simp [forwardEvents, hlen, h]

/-- Witness for the amended C6 at a concrete input: the failed-marshal batch
produces no HTTP attempt and the sink receives the wrapped fatal error. -/
theorem C6_error_sink_wrapping_witness :
    (forwardEvents scenarioW enc0 envMarshalFail [recA] false).1 = [] ∧
    (forwardEvents scenarioW enc0 envMarshalFail [recA] false).2.1 =
      some (GoError.wrap "forward with retries exhausted"
        (GoError.wrap "marshal" (GoError.marshalFailure "unsupported value"))) :=
  (C6_error_sink_wrapping scenarioW enc0 envMarshalFail [recA] false
    (by decide)).1 "unsupported value" rfl

/-- C7: a flush invoked with an empty buffer is a no-op — `forwardEvents` on
the empty batch performs no HTTP call and sends nothing to the error sink —
and every batch actually handed to `forwardWithRetries` is non-empty. -/
theorem C7_empty_flush_noop :
    (∀ (w : webhookForwarder) (enc : logHTTPHandlerRequestBody → String)
      (env : HTTPEnv) (b : Bool), forwardEvents w enc env [] b = ([], none, [])) ∧
    (∀ (w : webhookForwarder) (enc : logHTTPHandlerRequestBody → String)
      (env : HTTPEnv) (eventsPayload : List logHTTPHandlerRequestBody) (b : Bool)
      (batch : List logHTTPHandlerRequestBody),
      batch ∈ (forwardEvents w enc env eventsPayload b).2.2 → batch ≠ []) := by
  constructor
  · intro w enc env b
    rfl
  · intro w enc env eventsPayload b batch hmem
    by_cases hlen : eventsPayload.length = 0
    · simp [forwardEvents, hlen] at hmem
    · rcases hE : (forwardWithRetries w enc env eventsPayload).2.2 with _ | e <;>
        simp [forwardEvents, hlen, hE] at hmem <;>
        · subst hmem
          simpa [List.length_eq_zero] using hlen

/-- Witness for C7 at a concrete input: the one batch handed to
`forwardWithRetries` by a flush of [recA] is non-empty. -/
theorem C7_empty_flush_noop_witness : ([recA] : List logHTTPHandlerRequestBody) ≠ [] :=
  C7_empty_flush_noop.2 scenarioW enc0 envMarshalFail [recA] false [recA]
    (by rw [show forwardEvents scenarioW enc0 envMarshalFail [recA] false =
        ([], some (GoError.wrap "forward with retries exhausted"
          (GoError.wrap "marshal" (GoError.marshalFailure "unsupported value"))),
        [[recA]]) from rfl]
        simp)

lemma sizeCheck_under (w : webhookForwarder) (buf : List logHTTPHandlerRequestBody)
    (h : ¬ (0 < w.batchSize ∧ w.batchSize ≤ buf.length)) :
    sizeCheck w buf = ([], buf) := by
  rw [sizeCheck, if_neg h]

lemma sizeCheck_full (w : webhookForwarder) (buf : List logHTTPHandlerRequestBody)
    (hN : 0 < w.batchSize) (hfull : w.batchSize ≤ buf.length) :
    sizeCheck w buf = ([(buf, false)], []) := by
  rw [sizeCheck, if_pos (And.intro hN hfull)]

lemma bgRun_pump (w : webhookForwarder) :
    ∀ (rs buf : List logHTTPHandlerRequestBody) (evs : List BgEvent),
      buf.length + rs.length ≤ w.batchSize →
      (buf.length < w.batchSize ∨ rs = []) →
      bgRun w buf (rs.map BgEvent.record ++ evs) = bgRun w (buf ++ rs) evs := by
  intro rs
  induction rs with
  | nil =>
    intro buf evs _ _
    simp
  | cons r rest ih =>
    intro buf evs h hs
    have hlt : buf.length < w.batchSize := by
      rcases hs with h1 | h2
      · exact h1
      · exact absurd h2 (List.cons_ne_nil r rest)
    have hsc : sizeCheck w buf = ([], buf) := sizeCheck_under w buf (by omega)
    have hrec : bgRun w buf (BgEvent.record r :: (rest.map BgEvent.record ++ evs)) =
        bgRun w (buf ++ [r]) (rest.map BgEvent.record ++ evs) := by
      rw [bgRun, hsc]
      simp
    rw [List.map_cons, List.cons_append, hrec]
    rw [ih (buf ++ [r]) evs (by simp at h ⊢; omega)
      (by rcases rest with _ | ⟨x, xs⟩
          · exact Or.inr rfl
          · left
            simp at h ⊢
            omega)]
    simp

lemma bgRun_full_pre (w : webhookForwarder) (buf : List logHTTPHandlerRequestBody)
    (evs : List BgEvent) (hN : 0 < w.batchSize) (hfull : w.batchSize ≤ buf.length) :
    bgRun w buf evs =
      ((buf, false) :: (bgRun w [] evs).1, (bgRun w [] evs).2) := by
  have hsc : sizeCheck w buf = ([(buf, false)], []) := sizeCheck_full w buf hN hfull
  have hse : sizeCheck w ([] : List logHTTPHandlerRequestBody) = ([], []) :=
    sizeCheck_under w [] (by simp; omega)
  cases evs with
  | nil =>
    rw [show bgRun w buf [] = sizeCheck w buf from rfl, hsc]
    rw [show bgRun w ([] : List logHTTPHandlerRequestBody) [] = sizeCheck w [] from rfl, hse]
  | cons e rest =>
    cases e with
    | record r =>
      rw [bgRun, hsc]
      rw [show bgRun w ([] : List logHTTPHandlerRequestBody) (BgEvent.record r :: rest) =
        (let s := sizeCheck w ([] : List logHTTPHandlerRequestBody)
         let t := bgRun w (s.2 ++ [r]) rest
         (s.1 ++ t.1, t.2)) from by rw [bgRun]]
      rw [hse]
      simp
    | deadlineFired =>
      by_cases hbi : 0 < w.batchInterval
      · rw [bgRun, hsc, if_pos hbi]
        rw [show bgRun w ([] : List logHTTPHandlerRequestBody) (BgEvent.deadlineFired :: rest) =
          (let s := sizeCheck w ([] : List logHTTPHandlerRequestBody)
           if 0 < w.batchInterval then
             let t := bgRun w [] rest
             (s.1 ++ [(s.2, true)] ++ t.1, t.2)
           else
             let t := bgRun w s.2 rest
             (s.1 ++ t.1, t.2)) from by rw [bgRun]]
        rw [hse, if_pos hbi]
        simp
      · rw [bgRun, hsc, if_neg hbi]
        rw [show bgRun w ([] : List logHTTPHandlerRequestBody) (BgEvent.deadlineFired :: rest) =
          (let s := sizeCheck w ([] : List logHTTPHandlerRequestBody)
           if 0 < w.batchInterval then
             let t := bgRun w [] rest
             (s.1 ++ [(s.2, true)] ++ t.1, t.2)
           else
             let t := bgRun w s.2 rest
             (s.1 ++ t.1, t.2)) from by rw [bgRun]]
        rw [hse, if_neg hbi]
        simp

/-- C3: with `batchSize = N > 0` and `batchInterval = 0`, after exactly the
N records of `rs` arrive one size-triggered flush occurs containing exactly
those N records in arrival order (and the buffer is empty afterwards); an
(N+1)-th record begins a new batch, the run continuing exactly as a fresh
run on that record after the one flush of `rs`. In particular, with
`batchSize = 2` and records A, B, C, D the run produces exactly the two
flushes [A, B] then [C, D], in that order. -/
theorem C3_size_triggered_flush :
    (∀ (w : webhookForwarder) (rs : List logHTTPHandlerRequestBody),
      w.batchSize = rs.length → 0 < rs.length → w.batchInterval = 0 →
      bgRun w [] (rs.map BgEvent.record) = ([(rs, false)], []) ∧
      ∀ x, bgRun w [] ((rs ++ [x]).map BgEvent.record) =
        ((rs, false) :: (bgRun w [] [BgEvent.record x]).1,
         (bgRun w [] [BgEvent.record x]).2)) ∧
    bgRun scenarioW [] ([recA, recB, recC, recD].map BgEvent.record) =
      ([([recA, recB], false), ([recC, recD], false)], []) := by
  constructor
  · intro w rs hN hpos _hbi
    have hN0 : 0 < w.batchSize := by omega
    constructor
    · have h := bgRun_pump w rs [] []
        (by simp; omega) (Or.inl (by simp; omega))
      simp only [List.append_nil, List.nil_append] at h
      rw [h]
      rw [show bgRun w rs [] = sizeCheck w rs from rfl]
      exact sizeCheck_full w rs hN0 (by omega)
    · intro x
      rw [List.map_append]
      simp only [List.map_cons, List.map_nil]
      rw [bgRun_pump w rs [] [BgEvent.record x]
        (by simp; omega) (Or.inl (by simp; omega))]
      simp only [List.nil_append]
      exact bgRun_full_pre w rs [BgEvent.record x] hN0 (by omega)
  · rfl

/-- Witness for C3 at a concrete input: with `batchSize = 2` the records
[recA, recB] flush as one batch, and a third record recC starts afresh. -/
theorem C3_size_triggered_flush_witness :
    bgRun scenarioW [] ([recA, recB].map BgEvent.record) = ([([recA, recB], false)], []) ∧
    bgRun scenarioW [] (([recA, recB] ++ [recC]).map BgEvent.record) =
      (([recA, recB], false) :: (bgRun scenarioW [] [BgEvent.record recC]).1,
       (bgRun scenarioW [] [BgEvent.record recC]).2) :=
  ⟨(C3_size_triggered_flush.1 scenarioW [recA, recB] rfl (by decide) rfl).1,
   (C3_size_triggered_flush.1 scenarioW [recA, recB] rfl (by decide) rfl).2 recC⟩

lemma bgRun_zero_config (w : webhookForwarder) (hbs : w.batchSize = 0)
    (hbi : w.batchInterval = 0) :
    ∀ (evs : List BgEvent) (buf : List logHTTPHandlerRequestBody),
      bgRun w buf evs = ([], buf ++ recordsOf evs) := by
  intro evs
  induction evs with
  | nil =>
    intro buf
    rw [show bgRun w buf [] = sizeCheck w buf from rfl]
    rw [sizeCheck_under w buf (by omega)]
    simp [recordsOf]
  | cons e rest ih =>
    intro buf
    cases e with
    | record r =>
      rw [bgRun, sizeCheck_under w buf (by omega)]
      rw [show (([] : List (List logHTTPHandlerRequestBody × Bool)), buf).2 = buf from rfl]
      rw [ih (buf ++ [r])]
      simp [recordsOf]
    | deadlineFired =>
      rw [bgRun, sizeCheck_under w buf (by omega), if_neg (by omega)]
      rw [show (([] : List (List logHTTPHandlerRequestBody × Bool)), buf).2 = buf from rfl]
      rw [ih buf]
      simp [recordsOf]

/-- The forwarder built by `newWebhookForwarderHandler` from flags with
`batchSize = 0` and `batchInterval = 0`. -/
def zeroConfigW (ep : String) : webhookForwarder :=
  newWebhookForwarderHandler { postEndpoint := ep, batchSize := 0, batchInterval := 0 }

/-- C8: the configuration `batchSize = 0`, `batchInterval = 0` is accepted
as given by the constructor (no validation rejects it), and under it no
flush ever occurs: for every delivered communication sequence the run
invokes no delivery at all and the records simply accumulate in the buffer,
never forwarded. -/
theorem C8_zero_config_never_flushes (ep : String)
    (buf : List logHTTPHandlerRequestBody) (evs : List BgEvent) :
    (zeroConfigW ep).batchSize = 0 ∧ (zeroConfigW ep).batchInterval = 0 ∧
    bgRun (zeroConfigW ep) buf evs = ([], buf ++ recordsOf evs) :=
  ⟨rfl, rfl, bgRun_zero_config (zeroConfigW ep) rfl rfl evs buf⟩

/-- C9 failing-input demonstration: when the buffer is below the size
threshold, no record is available and no deadline has fired — i.e. no
`select` case is ready — the loop takes the `default: continue` branch and
polls again instead of suspending: the wait is a non-blocking poll in a
tight loop, not the blocking wait the spec requires. -/
theorem C9_select_default_busy_poll :
    bgSelect none false = SelectOutcome.polledDefault ∧
    SelectOutcome.polledDefault ≠ SelectOutcome.blocked := by
  exact ⟨rfl, by decide⟩

/-- C10: `bgProcessor`'s loop has no termination path — every iteration
continues, never returns, whatever the state and channel readiness; after
the stream closes (no further communications) a buffer below the size
threshold (or any buffer, when `batchSize = 0`) is never flushed and is
held unchanged; and running the loop on exactly the communications `forward`
pumps from a closing stream under the never-auto-flush configuration leaves
every record buffered and unforwarded. -/
theorem C10_bg_loop_never_terminates :
    (∀ (w : webhookForwarder) (buf : List logHTTPHandlerRequestBody)
      (m : Option logHTTPHandlerRequestBody) (d : Bool),
      bgIteration w buf m d ≠ LoopOutcome.returns) ∧
    (∀ (w : webhookForwarder) (buf : List logHTTPHandlerRequestBody),
      buf.length < w.batchSize ∨ w.batchSize = 0 →
      bgRun w buf [] = ([], buf)) ∧
    (∀ (w : webhookForwarder) (s : List logHTTPHandlerRequestBody),
      w.batchSize = 0 → w.batchInterval = 0 →
      bgRun w [] (forward w s) = ([], s)) := by
  refine ⟨?_, ?_, ?_⟩
  · intro w buf m d
    cases hsel : bgSelect m (d && decide (0 < w.batchInterval)) <;>
      simp [bgIteration, hsel]
  · intro w buf h
    rw [show bgRun w buf [] = sizeCheck w buf from rfl]
    rw [sizeCheck_under w buf (by omega)]
  · intro w s hbs hbi
    rw [forward, bgRun_zero_config w hbs hbi]
    have : recordsOf (s.map BgEvent.record) = s := by
      induction s with
      | nil => rfl
      | cons x xs ih => simp [recordsOf] at ih ⊢; exact ih
    rw [this]
    simp

/-- Witness for C10 at concrete inputs: an idle iteration continues (does
not return), and a buffer of one record below the threshold 2 is still
buffered, unflushed, after the stream closes. -/
theorem C10_bg_loop_never_terminates_witness :
    bgIteration scenarioW [] none false ≠ LoopOutcome.returns ∧
    bgRun scenarioW [recA] [] = ([], [recA]) :=
  ⟨C10_bg_loop_never_terminates.1 scenarioW [] none false,
   C10_bg_loop_never_terminates.2.1 scenarioW [recA] (Or.inl (by decide))⟩

end QueueInmemoryWebhookForwarder
